import Mathlib

/-!
# Verification of the nota-orbis audio-transcription pipeline

Shallow embedding of the core components of the `nota-orbis` transcription
service (Go), together with proofs of the behavioural properties claimed by
its specification.  Each definition mirrors one function of the Go source:

* `Stabilizer.runStab`       — `PollStabilizer.WaitForStable` (stabilizer/poll.go)
* `Client.isRetryable`       — `isRetryable` (client/retry.go)
* `Client.retryLoop`         — `RetryClient.Transcribe` (client/retry.go)
* `Whisper.handleResponse`   — response handling of `WhisperASRClient.Transcribe`
  and `parseResponse` (client/whisper_asr.go)
* `Pipeline.processFile`     — `Service.processFile` (service.go), with the write
  stage from `SimpleWriter.Write` (writer/writer.go) and the archive stage from
  `SimpleArchiver.Archive` (the archiver package, the one the service wires)
* `Output.generateFilename`  — `Writer.generateFilename` (output package)
* `Pidfile.readPid` / `Pidfile.isRunning` — `pidfile.Read` / `pidfile.IsRunning`
* `Config.applyDefaults`, `Config.expandTilde`, `Config.marshal`/`unmarshal`
  — the configuration package.

External effects (the clock, the remote HTTP service, `os.Stat` samples,
context cancellation) enter the model as explicit parameters, so every
definition is executable.
-/

namespace NotaOrbis

/-! ## Stabilizer (stabilizer/poll.go, stabilizer/stabilizer.go)

`WaitForStable` samples `os.Stat(path).Size()` once per interval.  One loop
iteration first waits on `select { ctx.Done / time.After }`, then stats the
path.  We model the outside world as a trace of iterations: whether the
context fired during the wait, and what the stat returned (`none` = stat
error, e.g. the file disappeared; `some n` = size `n`). -/

namespace Stabilizer

/-- One iteration of the polling loop as seen by `WaitForStable`. -/
structure Iter where
  cancelFired : Bool
  stat : Option Int
deriving DecidableEq, Repr

/-- Result of a run of the loop.  `pending` means the trace ended while the
loop would still be running (it never reached `stableCount ≥ Checks`). -/
inductive Outcome where
  | success
  | cancelled
  | statError
  | pending
deriving DecidableEq, Repr

/-- The loop of `PollStabilizer.WaitForStable`: `lastSize` and `stableCount`
are the mutable locals of the Go function; the returned `Nat` counts how many
stat samples were consumed.  Mirrors:

    for stableCount < s.Checks {
      select { ctx.Done -> return ctx.Err(); time.After(interval) -> }
      info, err := os.Stat(path); if err != nil { return err }
      if info.Size() == lastSize { stableCount++ }
      else { stableCount = 0; lastSize = info.Size() }
    }
    return nil
-/
def runStab (checks : Int) : Int → Nat → List Iter → Outcome × Nat
  | _, stableCount, [] =>
    if checks ≤ (stableCount : Int) then (.success, 0) else (.pending, 0)
  | lastSize, stableCount, it :: rest =>
    if checks ≤ (stableCount : Int) then (.success, 0)
    else if it.cancelFired then (.cancelled, 0)
    else
      match it.stat with
      | none => (.statError, 1)
      | some currentSize =>
        let r :=
          if currentSize = lastSize then runStab checks lastSize (stableCount + 1) rest
          else runStab checks currentSize 0 rest
        (r.1, r.2 + 1)

/-- Entry point: `lastSize` starts at the sentinel `-1`, the counter at 0. -/
def waitForStable (checks : Int) (trace : List Iter) : Outcome × Nat :=
  runStab checks (-1) 0 trace

/-- A successful run of the polling loop decomposes the trace into the consumed
samples (no cancellation, every stat succeeded) followed by the unread
remainder; the consumed sizes either end in `checks + 1` equal values, or are
all equal to the incoming baseline and just complete the incoming counter. -/
theorem runStab_success_decomp (checks : Int) (trace : List Iter) :
    ∀ (lastSize : Int) (stableCount m : Nat),
      (stableCount : Int) < checks →
      runStab checks lastSize stableCount trace = (.success, m) →
      ∃ (sizes : List Int) (rest : List Iter),
        trace = sizes.map (fun n => (⟨false, some n⟩ : Iter)) ++ rest ∧
        sizes.length = m ∧
        ((∃ pre v, sizes = pre ++ List.replicate (checks.toNat + 1) v) ∨
          (sizes = List.replicate m lastSize ∧ (m : Int) + stableCount = checks)) := by
  induction trace with
  | nil =>
    intro lastSize stableCount m hlt hrun
    simp [runStab, not_le.mpr hlt] at hrun
  | cons it rest ih =>
    intro lastSize stableCount m hlt hrun
    obtain ⟨cf, st⟩ := it
    simp only [runStab, if_neg (not_le.mpr hlt)] at hrun
    cases cf
    · cases st with
      | none => simp at hrun
      | some currentSize =>
        simp only [Bool.false_eq_true, if_false] at hrun
        by_cases hsz : currentSize = lastSize
        · rw [if_pos hsz] at hrun
          rcases hq : runStab checks lastSize (stableCount + 1) rest with ⟨o, n⟩
          rw [hq] at hrun
          simp only [Prod.mk.injEq] at hrun
          obtain ⟨ho, hn⟩ := hrun
          by_cases h2 : ((stableCount + 1 : Nat) : Int) < checks
          · obtain ⟨sizes, rest', htr, hlen, hdisj⟩ :=
              ih lastSize (stableCount + 1) n h2 (by rw [hq, ho])
            refine ⟨currentSize :: sizes, rest', ?_, ?_, ?_⟩
            · simp [htr]
            · simp [hlen, ← hn]
            · rcases hdisj with ⟨pre, v, hpv⟩ | ⟨hrep, hcnt⟩
              · exact Or.inl ⟨currentSize :: pre, v, by simp [hpv]⟩
              · refine Or.inr ⟨?_, ?_⟩
                · rw [hrep, hsz, ← hn]
                  simp [List.replicate_succ]
                · push_cast at hcnt ⊢
                  omega
          · have hck : checks = (stableCount : Int) + 1 := by push_cast at h2; omega
            have hzero : runStab checks lastSize (stableCount + 1) rest = (.success, 0) := by
              cases rest <;> simp [runStab] <;> omega
            rw [hq] at hzero
            simp only [Prod.mk.injEq] at hzero
            refine ⟨[currentSize], rest, by simp, by simp [← hn, hzero.2], ?_⟩
            refine Or.inr ⟨by simp [← hn, hzero.2, hsz], ?_⟩
            simp [← hn, hzero.2]
            omega
        · rw [if_neg hsz] at hrun
          rcases hq : runStab checks currentSize 0 rest with ⟨o, n⟩
          rw [hq] at hrun
          simp only [Prod.mk.injEq] at hrun
          obtain ⟨ho, hn⟩ := hrun
          have h0 : ((0 : Nat) : Int) < checks := by push_cast; omega
          obtain ⟨sizes, rest', htr, hlen, hdisj⟩ :=
            ih currentSize 0 n h0 (by rw [hq, ho])
          refine ⟨currentSize :: sizes, rest', by simp [htr], by simp [hlen, ← hn], ?_⟩
          rcases hdisj with ⟨pre, v, hpv⟩ | ⟨hrep, hcnt⟩
          · exact Or.inl ⟨currentSize :: pre, v, by simp [hpv]⟩
          · have hnv : n = checks.toNat := by omega
            refine Or.inl ⟨[], currentSize, ?_⟩
            rw [hrep, hnv]
            simp [List.replicate_succ]
    · simp at hrun

/-- C3: `WaitForStable` returns success only after observing `checks`
consecutive size samples each unchanged from the previous sample — i.e. the
consumed samples end in a run of `checks + 1` equal sizes, so at least
`checks + 1` samples are consumed and the first sample alone never suffices
(the initial baseline is the sentinel `-1`, which no real file size equals);
and a sample that differs from the current baseline resets the counter to 0
and makes that sample the new baseline. -/
theorem c3_stabilizer_success_requires_streak (checks : Int) (trace : List Iter) (m : Nat)
    (hchecks : 1 ≤ checks)
    (hsizes : ∀ it ∈ trace, ∀ n, it.stat = some n → 0 ≤ n)
    (hrun : waitForStable checks trace = (.success, m)) :
    checks.toNat + 1 ≤ m ∧
    (∃ (pre : List Int) (v : Int) (rest : List Iter),
      trace =
        (pre ++ List.replicate (checks.toNat + 1) v).map (fun n => (⟨false, some n⟩ : Iter))
          ++ rest ∧
      pre.length + (checks.toNat + 1) = m) ∧
    (∀ (lastSize : Int) (stableCount : Nat) (sz : Int) (rest : List Iter),
      sz ≠ lastSize → (stableCount : Int) < checks →
      runStab checks lastSize stableCount (⟨false, some sz⟩ :: rest) =
        ((runStab checks sz 0 rest).1, (runStab checks sz 0 rest).2 + 1)) := by
  have h0 : ((0 : Nat) : Int) < checks := by push_cast; omega
  obtain ⟨sizes, rest, htr, hlen, hdisj⟩ :=
    runStab_success_decomp checks trace (-1) 0 m h0 hrun
  have hreset : ∀ (lastSize : Int) (stableCount : Nat) (sz : Int) (rest' : List Iter),
      sz ≠ lastSize → (stableCount : Int) < checks →
      runStab checks lastSize stableCount (⟨false, some sz⟩ :: rest') =
        ((runStab checks sz 0 rest').1, (runStab checks sz 0 rest').2 + 1) := by
    intro lastSize stableCount sz rest' hne hlt
    simp [runStab, not_le.mpr hlt, hne]
  rcases hdisj with ⟨pre, v, hpv⟩ | ⟨hrep, hcnt⟩
  · have hm : pre.length + (checks.toNat + 1) = m := by
      rw [← hlen, hpv]; simp
    exact ⟨by omega, ⟨pre, v, rest, by rw [← hpv]; exact htr, hm⟩, hreset⟩
  · exfalso
    have hm1 : 1 ≤ m := by omega
    have hmem : (⟨false, some (-1)⟩ : Iter) ∈ trace := by
      rw [htr, hrep]
      apply List.mem_append_left
      apply List.mem_map_of_mem
      exact List.mem_replicate.mpr ⟨by omega, rfl⟩
    have := hsizes _ hmem (-1) rfl
    omega

/-- C9 witness helper is below; C9: with a non-positive `Checks`, the loop body
never runs: `WaitForStable` succeeds immediately, consuming no sample and never
consulting the cancel token — for every trace, including traces where the file
does not exist (`stat = none`) and where the context has already fired. -/
theorem c9_nonpositive_checks_immediate_success (checks : Int) (trace : List Iter)
    (hchecks : checks ≤ 0) :
    waitForStable checks trace = (.success, 0) := by
  cases trace <;> simp [waitForStable, runStab] <;> omega

/-- Witness for C3 at a concrete run: `checks = 1`, two equal samples of size 5
drive the loop to success after consuming both samples. -/
theorem c3_stabilizer_success_requires_streak_witness :
    (1 : Int).toNat + 1 ≤ 2 :=
  (c3_stabilizer_success_requires_streak 1 [⟨false, some 5⟩, ⟨false, some 5⟩] 2
    (by decide)
    (by intro it hit n hn; fin_cases hit <;> simp_all <;> omega)
    (by decide)).1

/-- Witness for C9: `Checks = 0` succeeds without sampling even when the file
is missing and the context has already fired. -/
theorem c9_nonpositive_checks_immediate_success_witness :
    waitForStable 0 [⟨true, none⟩] = (.success, 0) :=
  c9_nonpositive_checks_immediate_success 0 [⟨true, none⟩] (by decide)

end Stabilizer

/-! ## Transcription result (client/whisper_asr.go)

`TranscriptionResult` has fields `Text`, `Language`, `Duration float64`.
`Duration` is never assigned by any code in the repository (the parser only
fills `Text` and `Language`), so the model omits the floating-point field. -/

/-- The API response payload, as far as the code ever populates it. -/
structure TranscriptionResult where
  text : String
  language : String
deriving DecidableEq, Repr

/-! ## Retry wrapper (client/retry.go)

`isRetryable` classifies a Go `error` by: `errors.Is` against the two context
errors, `errors.As` against `net.Error` and `*net.OpError`, an
`fmt.Sscanf`-parse of a leading `"API error: status %d"` in the message, and
four substring probes of the message.  An error is modelled by exactly those
observable attributes. -/

namespace Client

/-- The attributes of a Go error that `isRetryable` inspects.  `apiStatus` is
`some n` when the message contains `"API error: status "` and `fmt.Sscanf`
parses `n` from it; the `msg*` flags are the `strings.Contains` probes. -/
structure GoError where
  isCanceled : Bool
  isDeadlineExceeded : Bool
  isNetError : Bool
  isOpError : Bool
  apiStatus : Option Int
  msgConnRefused : Bool
  msgConnReset : Bool
  msgNoSuchHost : Bool
  msgSendRequest : Bool
deriving DecidableEq, Repr

/-- An error with none of the recognised attributes (the default-deny case). -/
def GoError.unclassified : GoError :=
  ⟨false, false, false, false, none, false, false, false, false⟩

/-- `context.Canceled`. -/
def GoError.canceled : GoError := { GoError.unclassified with isCanceled := true }

/-- `context.DeadlineExceeded`. -/
def GoError.deadline : GoError := { GoError.unclassified with isDeadlineExceeded := true }

/-- A kernel-level network error (`errors.As(err, &netErr)` succeeds). -/
def GoError.netError : GoError := { GoError.unclassified with isNetError := true }

/-- An error whose message contains "no such host". -/
def GoError.noSuchHost : GoError := { GoError.unclassified with msgNoSuchHost := true }

/-- The structured API error `"API error: status <n>: <body>"` produced by the
HTTP client for a non-200 response. -/
def GoError.apiError (status : Int) : GoError :=
  { GoError.unclassified with apiStatus := some status }

/-- The final substring probes of `isRetryable`. -/
def msgProbes (e : GoError) : Bool :=
  e.msgConnRefused || e.msgConnReset || e.msgNoSuchHost || e.msgSendRequest

/-- `isRetryable` (client/retry.go): context errors are not retryable; network
errors are; a parsed `"API error: status N"` is not retryable for 4xx and
retryable for 5xx (any other status falls through to the substring probes);
unclassified errors are not retryable. -/
def isRetryable (e : GoError) : Bool :=
  if e.isCanceled || e.isDeadlineExceeded then false
  else if e.isNetError then true
  else if e.isOpError then true
  else
    match e.apiStatus with
    | some status =>
      if 400 ≤ status ∧ status < 500 then false
      else if 500 ≤ status ∧ status < 600 then true
      else msgProbes e
    | none => msgProbes e

/-- Result of `RetryClient.Transcribe`.  `exhausted retries last` is the
wrapping error `fmt.Errorf("transcription failed after %d retries: %w",
c.maxRetry, lastErr)`; `direct e` is a non-retryable error returned as-is;
`ctxDone` is `ctx.Err()` observed during a backoff wait. -/
inductive RetryResult where
  | success (r : TranscriptionResult)
  | direct (e : GoError)
  | ctxDone
  | exhausted (retries : Int) (last : Option GoError)
deriving DecidableEq, Repr

/-- The loop of `RetryClient.Transcribe`.  `client i` is the outcome of the
wrapped client's `i`-th call (0-based); `cancelDuringWait i` tells whether the
context fired during the backoff wait preceding attempt `i ≥ 1`.  Returns the
result together with the number of calls made to the wrapped client.  Mirrors:

    for attempt := 0; attempt <= c.maxRetry; attempt++ {
      if attempt > 0 { select { ctx.Done -> return nil, ctx.Err(); delay -> } }
      result, err := c.client.Transcribe(ctx, audioPath, opts)
      if err == nil { return result, nil }
      if !isRetryable(err) { return nil, err }
      lastErr = err
    }
    return nil, fmt.Errorf("transcription failed after %d retries: %w", c.maxRetry, lastErr)
-/
def retryLoop (client : Nat → Except GoError TranscriptionResult)
    (cancelDuringWait : Nat → Bool) (maxRetry : Int) :
    Nat → Option GoError → RetryResult × Nat
  | attempt, lastErr =>
    if h : (attempt : Int) ≤ maxRetry then
      if attempt ≠ 0 ∧ cancelDuringWait attempt then (.ctxDone, 0)
      else
        match client attempt with
        | .ok r => (.success r, 1)
        | .error e =>
          if isRetryable e then
            let r := retryLoop client cancelDuringWait maxRetry (attempt + 1) (some e)
            (r.1, r.2 + 1)
          else (.direct e, 1)
    else (.exhausted maxRetry lastErr, 0)
termination_by attempt _ => (maxRetry + 1 - attempt).toNat
decreasing_by simp_wf; omega

/-- `RetryClient.Transcribe`: start at attempt 0 with no last error. -/
def retryTranscribe (client : Nat → Except GoError TranscriptionResult)
    (cancelDuringWait : Nat → Bool) (maxRetry : Int) : RetryResult × Nat :=
  retryLoop client cancelDuringWait maxRetry 0 none

/-- If every remaining attempt fails with a retryable error, the loop performs
all of them and returns the wrapping error built from `maxRetry` and the error
of the final attempt. -/
theorem retryLoop_exhausts (client : Nat → Except GoError TranscriptionResult)
    (cancelDuringWait : Nat → Bool) (maxRetry : Int) (hmr : 0 ≤ maxRetry)
    (hw : ∀ i, cancelDuringWait i = false)
    (eL : GoError) (hL : client maxRetry.toNat = .error eL)
    (hfail : ∀ i : Nat, (i : Int) ≤ maxRetry → ∃ e, client i = .error e ∧ isRetryable e = true) :
    ∀ (k attempt : Nat) (lastErr : Option GoError), attempt + k = maxRetry.toNat →
      retryLoop client cancelDuringWait maxRetry attempt lastErr =
        (.exhausted maxRetry (some eL), k + 1) := by
  intro k
  induction k with
  | zero =>
    intro attempt lastErr hak
    have hatt : (attempt : Int) ≤ maxRetry := by omega
    have ha : attempt = maxRetry.toNat := by omega
    rw [retryLoop]
    rw [dif_pos hatt, if_neg (by simp [hw attempt])]
    obtain ⟨e, he, hre⟩ := hfail attempt hatt
    have heL : e = eL := by
      rw [ha] at he; rw [he] at hL; exact (Except.error.injEq _ _).mp hL
    rw [heL] at he hre
    have hstop : ¬ ((attempt + 1 : Nat) : Int) ≤ maxRetry := by omega
    simp only [he, hre, if_true]
    rw [retryLoop, dif_neg hstop]
  | succ k ih =>
    intro attempt lastErr hak
    have hatt : (attempt : Int) ≤ maxRetry := by omega
    rw [retryLoop]
    rw [dif_pos hatt, if_neg (by simp [hw attempt])]
    obtain ⟨e, he, hre⟩ := hfail attempt hatt
    simp only [he, hre, if_true]
    rw [ih (attempt + 1) (some e) (by omega)]

/-- C2: on a run of `RetryClient.Transcribe` with retry budget `maxRetry`
(uninterrupted by cancellation during the backoff waits):
if the wrapped client fails every attempt with a retryable error, exactly
`maxRetry + 1` calls are made and the wrapping error citing the retry count
and the last underlying error is returned; if the first call fails with a
non-retryable error, exactly one call is made (zero additional attempts) and
that error is returned directly.  Classification: cancellation, deadline
exceeded, 4xx statuses and unclassified errors are non-retryable; network
errors, "no such host" and 5xx statuses are retryable. -/
theorem c2_retry_wrapper (client : Nat → Except GoError TranscriptionResult)
    (cancelDuringWait : Nat → Bool) (maxRetry : Int)
    (hmr : 0 ≤ maxRetry) (hw : ∀ i, cancelDuringWait i = false) :
    (∀ eL, client maxRetry.toNat = .error eL →
      (∀ i : Nat, (i : Int) ≤ maxRetry → ∃ e, client i = .error e ∧ isRetryable e = true) →
      retryTranscribe client cancelDuringWait maxRetry =
        (.exhausted maxRetry (some eL), maxRetry.toNat + 1)) ∧
    (∀ e, client 0 = .error e → isRetryable e = false →
      retryTranscribe client cancelDuringWait maxRetry = (.direct e, 1)) ∧
    (isRetryable .canceled = false ∧ isRetryable .deadline = false ∧
      isRetryable .unclassified = false ∧
      (∀ st : Int, 400 ≤ st → st < 500 → isRetryable (.apiError st) = false) ∧
      isRetryable .netError = true ∧ isRetryable .noSuchHost = true ∧
      (∀ st : Int, 500 ≤ st → st < 600 → isRetryable (.apiError st) = true)) := by
  refine ⟨?_, ?_, ?_, ?_, ?_, ?_, ?_, ?_, ?_⟩
  · intro eL hL hfail
    exact retryLoop_exhausts client cancelDuringWait maxRetry hmr hw eL hL hfail
      maxRetry.toNat 0 none (by omega)
  · intro e he hre
    rw [retryTranscribe, retryLoop, dif_pos (by omega), if_neg (by simp)]
    simp [he, hre]
  · decide
  · decide
  · decide
  · intro st h1 h2
    have hn5 : ¬ (500 ≤ st ∧ st < 600) := by omega
    simp [isRetryable, GoError.apiError, GoError.unclassified, msgProbes, h1, h2, hn5]
  · decide
  · decide
  · intro st h1 h2
    have hn4 : ¬ (400 ≤ st ∧ st < 500) := by omega
    simp [isRetryable, GoError.apiError, GoError.unclassified, msgProbes, h1, h2, hn4]

/-- Witness for C2: every call answers 503 (retryable); with `maxRetry = 2`
the wrapper makes 3 calls and returns the wrapping error. -/
theorem c2_retry_wrapper_witness :
    retryTranscribe (fun _ => .error (.apiError 503)) (fun _ => false) 2 =
      (.exhausted 2 (some (.apiError 503)), 3) :=
  (c2_retry_wrapper (fun _ => .error (.apiError 503)) (fun _ => false) 2
    (by decide) (fun _ => rfl)).1 (.apiError 503) rfl
    (fun i _ => ⟨.apiError 503, rfl, by decide⟩)

end Client

/-! ## Shared helpers: wall-clock values and path manipulation

`time.Time` enters the model as a broken-down UTC timestamp; the zero value of
`time.Time` is January 1 of year 1 at 00:00:00.  `filepath.Join`, `filepath.Base`
and `filepath.Ext` are modelled for cleaned inputs (no `..` segments, no
duplicate or trailing separators inside arguments), which is how the service
builds every path it uses. -/

/-- A broken-down UTC wall-clock instant, modelling `time.Time`. -/
structure GoTime where
  year : Nat
  month : Nat
  day : Nat
  hour : Nat
  minute : Nat
  second : Nat
deriving DecidableEq, Repr

/-- The zero `time.Time`: January 1, year 1, 00:00:00 UTC. -/
def GoTime.zero : GoTime := ⟨1, 1, 1, 0, 0, 0⟩

/-- `time.Time.IsZero`. -/
def GoTime.isZero (t : GoTime) : Bool := t = GoTime.zero

/-- Zero-pad to two digits (the `01`/`02`/`15`/`04`/`05` layout fields). -/
def pad2 (n : Nat) : String :=
  if n < 10 then "0" ++ toString n else toString n

/-- Zero-pad to four digits (the `2006` layout field). -/
def pad4 (n : Nat) : String :=
  if n < 10 then "000" ++ toString n
  else if n < 100 then "00" ++ toString n
  else if n < 1000 then "0" ++ toString n
  else toString n

/-- Go layout `"2006-01-02-1504"`. -/
def formatYMDHM (t : GoTime) : String :=
  pad4 t.year ++ "-" ++ pad2 t.month ++ "-" ++ pad2 t.day ++ "-" ++
    pad2 t.hour ++ pad2 t.minute

/-- Go layout `"2006-01-02-150405"`. -/
def formatYMDHMS (t : GoTime) : String :=
  formatYMDHM t ++ pad2 t.second

/-- Go layout `"150405"`. -/
def formatHMS (t : GoTime) : String :=
  pad2 t.hour ++ pad2 t.minute ++ pad2 t.second

/-- Go layout `"2006-01-02 15:04"`. -/
def formatDateSpace (t : GoTime) : String :=
  pad4 t.year ++ "-" ++ pad2 t.month ++ "-" ++ pad2 t.day ++ " " ++
    pad2 t.hour ++ ":" ++ pad2 t.minute

/-- `time.RFC3339` for a UTC instant. -/
def formatRFC3339 (t : GoTime) : String :=
  pad4 t.year ++ "-" ++ pad2 t.month ++ "-" ++ pad2 t.day ++ "T" ++
    pad2 t.hour ++ ":" ++ pad2 t.minute ++ ":" ++ pad2 t.second ++ "Z"

/-- `filepath.Join` of a directory and one further element, for cleaned
inputs. -/
def goJoin (dir name : String) : String :=
  if name = "" then dir
  else if dir = "" then name
  else dir ++ "/" ++ name

/-- Helper for `goBase`: the characters after the last slash (`acc` holds the
current component reversed). -/
def lastComponent : List Char → List Char → List Char
  | [], acc => acc.reverse
  | c :: rest, acc => if c = '/' then lastComponent rest [] else lastComponent rest (c :: acc)

/-- `filepath.Base` for cleaned inputs: the element after the last slash. -/
def goBase (path : String) : String :=
  if path = "" then "."
  else if path = "/" then "/"
  else String.mk (lastComponent path.data [])

/-- Helper for `goExt`: walk the reversed character list; on a dot, return the
dot plus the accumulated suffix; stop empty on a path separator or exhaustion. -/
def goExtRev : List Char → List Char → String
  | [], _ => ""
  | c :: rest, acc =>
    if c = '/' then ""
    else if c = '.' then String.mk ('.' :: acc)
    else goExtRev rest (c :: acc)

/-- `filepath.Ext`: the suffix of the final path element beginning at its
final dot; empty when there is no dot. -/
def goExt (path : String) : String :=
  goExtRev path.data.reverse []

/-- `strings.TrimSuffix`: drop a trailing occurrence of `suffix`, if any. -/
def trimSuffix (s suffix : String) : String :=
  if s.data.drop (s.data.length - suffix.data.length) = suffix.data then
    String.mk (s.data.take (s.data.length - suffix.data.length))
  else s

/-! ## HTTP response handling of the transcription client (client/whisper_asr.go)

`WhisperASRClient.Transcribe` checks `resp.StatusCode != http.StatusOK` (i.e.
`!= 200`) and builds `fmt.Errorf("API error: status %d: %s", ...)` for any
other status; only a 200 body reaches `parseResponse`.  `encoding/json.Unmarshal`
into `whisperASRResponse` is abstracted as a decoder function supplied with the
client model. -/

namespace Whisper

/-- The response format configured on the client (`output` query parameter). -/
inductive OutputFormat where
  | text
  | json
deriving DecidableEq, Repr

/-- The JSON payload `whisperASRResponse` (`{"text": ..., "language": ...}`). -/
structure WhisperASRResponse where
  text : String
  language : String
deriving DecidableEq, Repr

/-- An HTTP response as the client observes it: status code and body bytes. -/
structure Response where
  status : Int
  body : String
deriving DecidableEq, Repr

/-- Errors produced by the response path of `Transcribe`. -/
inductive ClientError where
  | apiError (status : Int) (body : String)
  | parseJSON
deriving DecidableEq, Repr

/-- The client model: its configured output format and the behaviour of
`json.Unmarshal` into `whisperASRResponse` on each possible body. -/
structure Model where
  output : OutputFormat
  jsonUnmarshal : String → Option WhisperASRResponse

/-- `WhisperASRClient.parseResponse`: text output returns the body verbatim as
the text; JSON output decodes `{text, language}` or fails. -/
def parseResponse (c : Model) (body : String) : Except ClientError TranscriptionResult :=
  if c.output = .text then .ok ⟨body, ""⟩
  else
    match c.jsonUnmarshal body with
    | some r => .ok ⟨r.text, r.language⟩
    | none => .error .parseJSON

/-- The response handling of `WhisperASRClient.Transcribe`: any status other
than 200 yields the structured API error carrying status and body; a 200 body
is parsed according to the output format. -/
def handleResponse (c : Model) (resp : Response) : Except ClientError TranscriptionResult :=
  if resp.status ≠ 200 then .error (.apiError resp.status resp.body)
  else parseResponse c resp.body

/-- A concrete JSON-mode client whose decoder recognises the single body
`"body-with-text-hello"`; used to exhibit the 201 counterexample. -/
def jsonModel : Model :=
  ⟨.json, fun s => if s = "body-with-text-hello" then some ⟨"hello", "en"⟩ else none⟩

/-- C6 counterexample: a 201 response is a 2xx response whose JSON body the
decoder accepts, yet the client returns the structured API error instead of
the parsed result — the code tests `StatusCode != 200`, not "non-2xx". -/
theorem c6_counterexample_201_is_error :
    (200 ≤ (201 : Int) ∧ (201 : Int) < 300) ∧
    jsonModel.jsonUnmarshal "body-with-text-hello" = some ⟨"hello", "en"⟩ ∧
    handleResponse jsonModel ⟨201, "body-with-text-hello"⟩ =
      .error (.apiError 201 "body-with-text-hello") ∧
    handleResponse jsonModel ⟨201, "body-with-text-hello"⟩ ≠ .ok ⟨"hello", "en"⟩ := by
  refine ⟨by decide, rfl, rfl, by intro hok; simp [handleResponse, jsonModel] at hok⟩

/-- C6 (amended: "2xx" tightened to "200", as the counterexample forces):
a 200 response is parsed into the result — JSON output into `{text, language}`
via the decoder, text output returned verbatim as the text — and any non-200
response yields the structured error carrying the status code and the body. -/
theorem c6_response_handling (c : Model) (resp : Response) :
    (resp.status ≠ 200 →
      handleResponse c resp = .error (.apiError resp.status resp.body)) ∧
    (resp.status = 200 → c.output = .text →
      handleResponse c resp = .ok ⟨resp.body, ""⟩) ∧
    (resp.status = 200 → c.output = .json →
      ∀ r, c.jsonUnmarshal resp.body = some r →
        handleResponse c resp = .ok ⟨r.text, r.language⟩) := by
  refine ⟨?_, ?_, ?_⟩
  · intro hne
    rw [handleResponse, if_pos hne]
  · intro h200 htext
    rw [handleResponse, if_neg (by simp [h200]), parseResponse, if_pos htext]
  · intro h200 hjson r hr
    rw [handleResponse, if_neg (by simp [h200]), parseResponse,
      if_neg (by simp [hjson]), hr]

/-- Witness for C6 at a concrete 200 JSON response. -/
theorem c6_response_handling_witness :
    handleResponse jsonModel ⟨200, "body-with-text-hello"⟩ = .ok ⟨"hello", "en"⟩ :=
  (c6_response_handling jsonModel ⟨200, "body-with-text-hello"⟩).2.2 rfl rfl
    ⟨"hello", "en"⟩ rfl

end Whisper

/-! ## Output writers

The repository holds two writers.  `SimpleWriter.Write` (writer/writer.go) — the
one `Service.processFile` wires — names outputs after the source basename and a
seconds-resolution timestamp, with no collision probing.  `Writer.generateFilename`
(output package) implements the `YYYY-MM-DD-HHmm-voice-note.md` scheme with
`-2 … -1000` collision suffixes. -/

/-- The output filename computed by `SimpleWriter.Write` (writer/writer.go):
`<source-base-without-ext>-<YYYY-MM-DD-HHMMSS>.md`, using `time.Now()` when the
event timestamp is the zero time. -/
def simpleFilename (sourceFile : String) (timestamp now : GoTime) : String :=
  let baseName := goBase sourceFile
  let ext := goExt baseName
  let nameWithoutExt := trimSuffix baseName ext
  let ts := if timestamp.isZero then now else timestamp
  nameWithoutExt ++ "-" ++ formatYMDHMS ts ++ ".md"

/-- Modelled from the spec's words, for comparison only (claim C4): the claimed
output filename `YYYY-MM-DD-HHmm-voice-note.md` computed from the event
timestamp, or from the current time when the event timestamp is zero. -/
def claimedVoiceNoteFilename (timestamp now : GoTime) : String :=
  formatYMDHM (if timestamp.isZero then now else timestamp) ++ "-voice-note.md"

namespace Output

/-- The base name `ts.Format("2006-01-02-1504") + "-voice-note"` computed at
the top of `Writer.generateFilename` (timestamp, or current time if zero). -/
def voiceBaseName (timestamp now : GoTime) : String :=
  formatYMDHM (if timestamp.isZero then now else timestamp) ++ "-voice-note"

/-- `Writer.generateFilename` (output package).  `existsFile p` models
"`os.Stat(p)` did not fail with `IsNotExist`".  Returns `none` for the
"too many files with same timestamp" error.  Mirrors: try the plain name,
then `-2`, `-3`, …, `-1000` in order, returning the first free candidate. -/
def generateFilename (existsFile : String → Bool) (outputDir : String)
    (timestamp now : GoTime) : Option String :=
  let baseName := voiceBaseName timestamp now
  let ext := ".md"
  let filename := baseName ++ ext
  if !existsFile (goJoin outputDir filename) then some filename
  else
    ((List.range' 2 999).find?
        (fun i => !existsFile (goJoin outputDir (baseName ++ "-" ++ toString i ++ ext)))).map
      (fun i => baseName ++ "-" ++ toString i ++ ext)

/-- `List.find?` over `List.range' s n` returns the least number in the range
satisfying the predicate: every smaller number in the range fails it. -/
theorem find?_range'_least (p : Nat → Bool) :
    ∀ (n s a : Nat), (List.range' s n).find? p = some a →
      p a = true ∧ s ≤ a ∧ a < s + n ∧ ∀ j, s ≤ j → j < a → p j = false := by
  intro n
  induction n with
  | zero => intro s a h; simp at h
  | succ n ih =>
    intro s a h
    rw [List.range'_succ] at h
    by_cases hp : p s = true
    · rw [List.find?_cons_of_pos _ hp] at h
      obtain rfl : s = a := by simpa using h
      exact ⟨hp, le_refl s, by omega, fun j h1 h2 => absurd (lt_of_le_of_lt h1 h2) (lt_irrefl s)⟩
    · rw [List.find?_cons_of_neg _ hp] at h
      obtain ⟨hpa, hle, hlt, hleast⟩ := ih (s + 1) a h
      refine ⟨hpa, by omega, by omega, ?_⟩
      intro j h1 h2
      rcases Nat.eq_or_lt_of_le h1 with rfl | h1'
      · exact Bool.eq_false_iff.mpr hp
      · exact hleast j h1' h2

/-- C4 counterexample: the writer wired into `Service.processFile` is
`SimpleWriter` (writer/writer.go), whose filename for a concrete event —
source `/w/note.m4a`, event timestamp 2026-01-22 14:30:05 — is
`note-2026-01-22-143005.md`, not the claimed `2026-01-22-1430-voice-note.md`. -/
theorem c4_counterexample_pipeline_writer_naming :
    simpleFilename "/w/note.m4a" ⟨2026, 1, 22, 14, 30, 5⟩ ⟨2026, 1, 22, 14, 31, 0⟩ =
      "note-2026-01-22-143005.md" ∧
    claimedVoiceNoteFilename ⟨2026, 1, 22, 14, 30, 5⟩ ⟨2026, 1, 22, 14, 31, 0⟩ =
      "2026-01-22-1430-voice-note.md" ∧
    simpleFilename "/w/note.m4a" ⟨2026, 1, 22, 14, 30, 5⟩ ⟨2026, 1, 22, 14, 31, 0⟩ ≠
      claimedVoiceNoteFilename ⟨2026, 1, 22, 14, 30, 5⟩ ⟨2026, 1, 22, 14, 31, 0⟩ := by
  exact ⟨by decide, by decide, by decide⟩

/-- C4 (amended: the collision-safe `YYYY-MM-DD-HHmm-voice-note.md` naming is
implemented by the output package's `Writer.generateFilename`, not by the
writer wired into the pipeline): the chosen filename never collides with an
existing path; it is the plain voice-note name or a `-i` suffixed variant with
`2 ≤ i ≤ 1000` chosen as the first free candidate in order; if the plain name
and all 999 suffixed candidates exist the writer fails ("too many
collisions"); a zero event timestamp falls back to the current time. -/
theorem c4_voice_note_filename (existsFile : String → Bool) (outputDir : String)
    (timestamp now : GoTime) :
    (∀ fn, generateFilename existsFile outputDir timestamp now = some fn →
      existsFile (goJoin outputDir fn) = false) ∧
    (∀ fn, generateFilename existsFile outputDir timestamp now = some fn →
      fn = voiceBaseName timestamp now ++ ".md" ∨
      ∃ i, 2 ≤ i ∧ i ≤ 1000 ∧
        fn = voiceBaseName timestamp now ++ "-" ++ toString i ++ ".md" ∧
        existsFile (goJoin outputDir (voiceBaseName timestamp now ++ ".md")) = true ∧
        ∀ j, 2 ≤ j → j < i →
          existsFile
            (goJoin outputDir (voiceBaseName timestamp now ++ "-" ++ toString j ++ ".md")) =
            true) ∧
    (existsFile (goJoin outputDir (voiceBaseName timestamp now ++ ".md")) = true →
      (∀ i, 2 ≤ i → i ≤ 1000 →
        existsFile
          (goJoin outputDir (voiceBaseName timestamp now ++ "-" ++ toString i ++ ".md")) =
          true) →
      generateFilename existsFile outputDir timestamp now = none) ∧
    generateFilename existsFile outputDir GoTime.zero now =
      generateFilename existsFile outputDir now now := by
  refine ⟨?_, ?_, ?_, ?_⟩
  · intro fn h
    rw [generateFilename] at h
    by_cases h0 : existsFile (goJoin outputDir (voiceBaseName timestamp now ++ ".md"))
    · rw [if_neg (by simp [h0])] at h
      obtain ⟨i, hfind, hfn⟩ := Option.map_eq_some'.mp h
      have := List.find?_some hfind
      simp only [Bool.not_eq_true'] at this
      rw [← hfn]
      exact this
    · rw [if_pos (by simp [Bool.eq_false_iff.mpr h0])] at h
      obtain rfl : voiceBaseName timestamp now ++ ".md" = fn := by simpa using h
      exact Bool.eq_false_iff.mpr h0
  · intro fn h
    rw [generateFilename] at h
    by_cases h0 : existsFile (goJoin outputDir (voiceBaseName timestamp now ++ ".md"))
    · rw [if_neg (by simp [h0])] at h
      obtain ⟨i, hfind, hfn⟩ := Option.map_eq_some'.mp h
      obtain ⟨hpi, hge, hlt, hleast⟩ := find?_range'_least _ 999 2 i hfind
      refine Or.inr ⟨i, hge, by omega, hfn.symm, h0, ?_⟩
      intro j h1 h2
      have hj := hleast j h1 h2
      simpa using hj
    · rw [if_pos (by simp [Bool.eq_false_iff.mpr h0])] at h
      exact Or.inl (by simpa using h.symm)
  · intro h0 hful
    rw [generateFilename, if_neg (by simp [h0])]
    have hnone : (List.range' 2 999).find?
        (fun i =>
          !existsFile (goJoin outputDir (voiceBaseName timestamp now ++ "-" ++ toString i ++ ".md"))) =
        none := by
      rw [List.find?_eq_none]
      intro x hx
      have hxr : 2 ≤ x ∧ x ≤ 1000 := by
        rw [List.mem_range'] at hx
        omega
      simp [hful x hxr.1 hxr.2]
    rw [hnone]
    rfl
  · have hbase : voiceBaseName GoTime.zero now = voiceBaseName now now := by
      rw [voiceBaseName, voiceBaseName]
      have h1 : (GoTime.zero.isZero : Bool) = true := by decide
      rw [if_pos (by simp [h1]), ite_self]
    rw [generateFilename, generateFilename, hbase]

/-- Witness for C4 (amended) at a fully-collided directory: every candidate
exists, so the writer reports too many collisions. -/
theorem c4_voice_note_filename_witness :
    generateFilename (fun _ => true) "o" ⟨2026, 1, 22, 14, 30, 0⟩ ⟨2026, 1, 22, 14, 30, 0⟩ =
      none :=
  (c4_voice_note_filename (fun _ => true) "o" ⟨2026, 1, 22, 14, 30, 0⟩
    ⟨2026, 1, 22, 14, 30, 0⟩).2.2.1 rfl (fun _ _ _ => rfl)

end Output

/-! ## The per-file pipeline (service.go)

`Service.processFile` runs size check → stabilize → transcribe (with the
service's inline retry loop) → write → archive for one file event.  The
filesystem is modelled as a map from absolute paths to file contents, where
each file carries a `synced` flag recording whether the write that produced it
was flushed (`File.Sync`) before the writing call returned — `os.WriteFile`
alone leaves it `false`, and a rename preserves whatever the source had.  The
stages that only read the world (stabilizer, transcription client) enter as
oracles recording their outcome for this run.  The write stage embeds
`SimpleWriter.Write` (writer/writer.go); the archive stage embeds
`SimpleArchiver.Archive` (the archiver package) — the implementations the
service actually wires: the archiver moves the source into the date-tiered
`archiveDir/YYYY/MM/DD` directory by `os.Rename`, adding a `-HHMMSS` suffix
when the destination exists, and on rename failure (cross-device) falls back
to `os.ReadFile` + `os.WriteFile` + `os.Remove` with no `Sync` before the
source is deleted. -/

namespace Pipeline

/-- A file as the model tracks it: its content, and whether the write that
produced it was flushed to disk before the writing call returned. -/
structure FileData where
  content : String
  synced : Bool
deriving DecidableEq, Repr

/-- The filesystem: file state by absolute path. -/
def FS : Type := String → Option FileData

/-- `os.WriteFile` and friends: record the written data at the path. -/
def fsWrite (fs : FS) (p : String) (d : FileData) : FS :=
  fun q => if q = p then some d else fs q

/-- `os.Remove`. -/
def fsRemove (fs : FS) (p : String) : FS :=
  fun q => if q = p then none else fs q

/-- `os.Rename`: the destination takes the source's file state (content and
durability travel with the inode), the source disappears. -/
def fsRename (fs : FS) (src dst : String) : FS :=
  fun q => if q = dst then fs src else if q = src then none else fs q

/-- A watcher event: absolute path, size at detection, detection timestamp. -/
structure FileEvent where
  path : String
  size : Int
  timestamp : GoTime
deriving DecidableEq, Repr

/-- `formatTranscription` (writer/writer.go): YAML frontmatter (source
basename, RFC3339 timestamp when non-zero, type) followed by the text. -/
def formatTranscription (text : String) (sourceFile : String) (timestamp : GoTime) : String :=
  "---\n" ++ "source: " ++ goBase sourceFile ++ "\n" ++
    (if timestamp.isZero then "" else "transcribed: " ++ formatRFC3339 timestamp ++ "\n") ++
    "type: transcription\n" ++ "---\n\n" ++ "# Transcription\n\n" ++ text ++ "\n"

/-- `SimpleWriter.Write` (writer/writer.go): compute the output path from the
source basename and the timestamp, format the content, write the file with
`os.WriteFile` (no `Sync`, hence `synced := false`).  `writeOk` models whether
`MkdirAll`/`WriteFile` succeed (the context check at entry folds into it); on
failure no path is recorded.  Returns the output path and the new
filesystem. -/
def simpleWrite (writeOk : Bool) (fs : FS) (text : String) (outputDir sourceFile : String)
    (timestamp now : GoTime) : Except Unit (String × FS) :=
  let outputPath := goJoin outputDir (simpleFilename sourceFile timestamp now)
  if writeOk then
    .ok (outputPath,
      fsWrite fs outputPath ⟨formatTranscription text sourceFile timestamp, false⟩)
  else .error ()

/-- The date-tiered directory `filepath.Join(archiveDir, now.Format("2006"),
now.Format("01"), now.Format("02"))` of `SimpleArchiver.Archive`. -/
def archiveDateDir (now : GoTime) (archiveDir : String) : String :=
  goJoin (goJoin (goJoin archiveDir (pad4 now.year)) (pad2 now.month)) (pad2 now.day)

/-- The destination path `SimpleArchiver.Archive` settles on: the basename
inside the date directory, or — when `os.Stat` finds that path occupied — the
basename with a `-HHMMSS` timestamp inserted before the extension. -/
def destFor (now : GoTime) (fs : FS) (sourcePath archiveDir : String) : String :=
  let dateDir := archiveDateDir now archiveDir
  let baseName := goBase sourcePath
  let destPath := goJoin dateDir baseName
  if (fs destPath).isSome then
    let ext := goExt baseName
    let nameWithoutExt := String.mk (baseName.data.take (baseName.data.length - ext.data.length))
    goJoin dateDir (nameWithoutExt ++ "-" ++ formatHMS now ++ ext)
  else destPath

/-- The external outcomes of one `SimpleArchiver.Archive` run.  `renameOk`
tells whether `os.Rename` succeeds (`false` covers the cross-device case that
triggers the `copyAndDelete` fallback); the remaining flags are the fallback's
`os.ReadFile`, `os.Stat` and `os.WriteFile` calls and the final `os.Remove`. -/
structure ArchiveEnv where
  ctxAtEntryOk : Bool
  mkdirOk : Bool
  renameOk : Bool
  readOk : Bool
  statOk : Bool
  writeOk : Bool
  removeOk : Bool
deriving DecidableEq, Repr

/-- Errors of `SimpleArchiver.Archive`. -/
inductive ArchiveError where
  | ctxErr
  | ioErr
deriving DecidableEq, Repr

/-- `SimpleArchiver.Archive` (the archiver package wired by `service.go`):
check the context, create the date directory, pick the destination (collision
suffix via `os.Stat`), then `os.Rename`; on rename failure fall back to
read-all + write-all + remove-source — the fallback issues no `Sync` before
deleting the source, so the archived copy is recorded unflushed.  A missing
source fails (the rename and the fallback's read both error).  Returns the
error (if any) and the filesystem after the run. -/
def simpleArchive (env : ArchiveEnv) (now : GoTime) (fs : FS) (sourcePath archiveDir : String) :
    Option ArchiveError × FS :=
  if !env.ctxAtEntryOk then (some .ctxErr, fs)
  else if !env.mkdirOk then (some .ioErr, fs)
  else
    match fs sourcePath with
    | none => (some .ioErr, fs)
    | some d =>
      if env.renameOk then (none, fsRename fs sourcePath (destFor now fs sourcePath archiveDir))
      else if !env.readOk then (some .ioErr, fs)
      else if !env.statOk then (some .ioErr, fs)
      else if !env.writeOk then (some .ioErr, fs)
      else
        let fs1 := fsWrite fs (destFor now fs sourcePath archiveDir) ⟨d.content, false⟩
        if !env.removeOk then (some .ioErr, fs1)
        else (none, fsRemove fs1 sourcePath)

/-- The oracles of one `processFile` run: outcome of stabilization, outcome of
the transcription attempts (`some text` = eventual success), success of the
output write, the archive-stage environment, and the current time (used by
the writer for zero timestamps and by the archiver for the date tier). -/
structure PipeEnv where
  stabOk : Bool
  transcribeResult : Option String
  writeOk : Bool
  arch : ArchiveEnv
  now : GoTime

/-- The configuration fields `processFile` consults. -/
structure PipeConfig where
  maxFileSizeMB : Int
  outputDir : String
  archiveDir : String
deriving DecidableEq, Repr

/-- Terminal states of the per-file worker. -/
inductive Outcome where
  | skippedTooLarge
  | stabilizeFailed
  | transcribeFailed
  | writeFailed
  | archiveFailed
  | done (outputPath : String)
deriving DecidableEq, Repr

/-- `Service.processFile` (service.go): size check, stabilize, transcribe,
write, archive; every failure returns without touching the watch directory —
the only deletions in the whole pipeline are the rename and the remove inside
the archive stage. -/
def processFile (env : PipeEnv) (cfg : PipeConfig) (fs : FS) (event : FileEvent) :
    Outcome × FS :=
  let maxSize := cfg.maxFileSizeMB * 1024 * 1024
  if event.size > maxSize then (.skippedTooLarge, fs)
  else if !env.stabOk then (.stabilizeFailed, fs)
  else
    match env.transcribeResult with
    | none => (.transcribeFailed, fs)
    | some text =>
      match simpleWrite env.writeOk fs text cfg.outputDir event.path event.timestamp env.now with
      | .error _ => (.writeFailed, fs)
      | .ok (outputPath, fs1) =>
        match simpleArchive env.arch env.now fs1 event.path cfg.archiveDir with
        | (some _, fs2) => (.archiveFailed, fs2)
        | (none, fs2) => (.done outputPath, fs2)

/-- Every run of `SimpleArchiver.Archive` over a present source either fails
leaving the source in place, or succeeds with the source moved to the chosen
destination — by rename (file state carried over), or by the unflushed
copy-then-delete fallback. -/
theorem simpleArchive_cases (env : ArchiveEnv) (now : GoTime) (fs : FS) (src dir : String)
    (d : FileData) (hsrc : fs src = some d)
    (hdest : destFor now fs src dir ≠ src) :
    (∃ e fsa, simpleArchive env now fs src dir = (some e, fsa) ∧ fsa src = some d) ∨
    simpleArchive env now fs src dir = (none, fsRename fs src (destFor now fs src dir)) ∨
    simpleArchive env now fs src dir =
      (none, fsRemove (fsWrite fs (destFor now fs src dir) ⟨d.content, false⟩) src) := by
  rw [simpleArchive]
  cases hc1 : env.ctxAtEntryOk
  · exact Or.inl ⟨.ctxErr, fs, by simp, hsrc⟩
  · simp only [Bool.not_true, Bool.false_eq_true, if_false]
    cases hc2 : env.mkdirOk
    · exact Or.inl ⟨.ioErr, fs, by simp, hsrc⟩
    · simp only [Bool.not_true, Bool.false_eq_true, if_false, hsrc]
      cases hc3 : env.renameOk
      · simp only [Bool.false_eq_true, if_false]
        cases hc4 : env.readOk
        · exact Or.inl ⟨.ioErr, fs, by simp, hsrc⟩
        · simp only [Bool.not_true, Bool.false_eq_true, if_false]
          cases hc5 : env.statOk
          · exact Or.inl ⟨.ioErr, fs, by simp, hsrc⟩
          · simp only [Bool.not_true, Bool.false_eq_true, if_false]
            cases hc6 : env.writeOk
            · exact Or.inl ⟨.ioErr, fs, by simp, hsrc⟩
            · simp only [Bool.not_true, Bool.false_eq_true, if_false]
              have hws : fsWrite fs (destFor now fs src dir) ⟨d.content, false⟩ src =
                  some d := by
                rw [fsWrite, if_neg (fun h => hdest h.symm), hsrc]
              cases hc7 : env.removeOk
              · exact Or.inl ⟨.ioErr, _, by simp, hws⟩
              · simp
      · simp

/-- Case analysis of one `processFile` run over a source present in the watch
directory: each failing stage leaves the source in the watch directory with
its state intact (the archive stage may fail after the fallback's copy, but
never after a deletion), and the successful run ends with the transcription at
the output path, the source content at the chosen archive destination, and the
source removed. -/
theorem processFile_cases (env : PipeEnv) (cfg : PipeConfig) (fs : FS) (event : FileEvent)
    (d : FileData) (hsrc : fs event.path = some d)
    (hout : goJoin cfg.outputDir (simpleFilename event.path event.timestamp env.now) ≠ event.path)
    (hc1out : goJoin (archiveDateDir env.now cfg.archiveDir) (goBase event.path) ≠
      goJoin cfg.outputDir (simpleFilename event.path event.timestamp env.now))
    (hdsrc : destFor env.now fs event.path cfg.archiveDir ≠ event.path)
    (hdout : destFor env.now fs event.path cfg.archiveDir ≠
      goJoin cfg.outputDir (simpleFilename event.path event.timestamp env.now)) :
    processFile env cfg fs event = (.skippedTooLarge, fs) ∨
    processFile env cfg fs event = (.stabilizeFailed, fs) ∨
    processFile env cfg fs event = (.transcribeFailed, fs) ∨
    processFile env cfg fs event = (.writeFailed, fs) ∨
    (∃ fsa, processFile env cfg fs event = (.archiveFailed, fsa) ∧
      fsa event.path = some d) ∨
    (∃ text fs2, env.transcribeResult = some text ∧
      processFile env cfg fs event =
        (.done (goJoin cfg.outputDir (simpleFilename event.path event.timestamp env.now)),
          fs2) ∧
      fs2 event.path = none ∧
      (∃ b, fs2 (destFor env.now fs event.path cfg.archiveDir) = some ⟨d.content, b⟩) ∧
      fs2 (goJoin cfg.outputDir (simpleFilename event.path event.timestamp env.now)) =
        some ⟨formatTranscription text event.path event.timestamp, false⟩) := by
  by_cases hsz : event.size > cfg.maxFileSizeMB * 1024 * 1024
  · exact Or.inl (by simp [processFile, hsz])
  cases hst : env.stabOk
  · exact Or.inr (Or.inl (by simp [processFile, hsz, hst]))
  cases htr : env.transcribeResult with
  | none => exact Or.inr (Or.inr (Or.inl (by simp [processFile, hsz, hst, htr])))
  | some text =>
    cases hw : env.writeOk
    · refine Or.inr (Or.inr (Or.inr (Or.inl ?_)))
      simp [processFile, hsz, hst, htr, simpleWrite, hw]
    · have hP : processFile env cfg fs event =
          match simpleArchive env.arch env.now
            (fsWrite fs
              (goJoin cfg.outputDir (simpleFilename event.path event.timestamp env.now))
              ⟨formatTranscription text event.path event.timestamp, false⟩)
            event.path cfg.archiveDir with
          | (some _, fs2) => (.archiveFailed, fs2)
          | (none, fs2) =>
            (.done (goJoin cfg.outputDir (simpleFilename event.path event.timestamp env.now)),
              fs2) := by
        simp [processFile, hsz, hst, htr, simpleWrite, hw]
      have hsrc1 : fsWrite fs
          (goJoin cfg.outputDir (simpleFilename event.path event.timestamp env.now))
          ⟨formatTranscription text event.path event.timestamp, false⟩ event.path =
          some d := by
        rw [fsWrite, if_neg (fun h => hout h.symm), hsrc]
      have hD : destFor env.now
          (fsWrite fs
            (goJoin cfg.outputDir (simpleFilename event.path event.timestamp env.now))
            ⟨formatTranscription text event.path event.timestamp, false⟩)
          event.path cfg.archiveDir = destFor env.now fs event.path cfg.archiveDir := by
        rw [destFor, destFor]
        have hq : fsWrite fs
            (goJoin cfg.outputDir (simpleFilename event.path event.timestamp env.now))
            ⟨formatTranscription text event.path event.timestamp, false⟩
            (goJoin (archiveDateDir env.now cfg.archiveDir) (goBase event.path)) =
            fs (goJoin (archiveDateDir env.now cfg.archiveDir) (goBase event.path)) := by
          rw [fsWrite, if_neg hc1out]
        rw [hq]
      rcases simpleArchive_cases env.arch env.now _ event.path cfg.archiveDir d hsrc1
        (by rw [hD]; exact hdsrc) with ⟨e, fsa, ha, hfsa⟩ | ha | ha
      · refine Or.inr (Or.inr (Or.inr (Or.inr (Or.inl ⟨fsa, ?_, hfsa⟩))))
        rw [hP, ha]
      · -- success by rename
        rw [hD] at ha
        refine Or.inr (Or.inr (Or.inr (Or.inr (Or.inr ⟨text, _, rfl, by rw [hP, ha], ?_, ?_, ?_⟩))))
        · rw [fsRename, if_neg (fun h => hdsrc h.symm), if_pos rfl]
        · refine ⟨d.synced, ?_⟩
          rw [fsRename, if_pos rfl, hsrc1]
        · rw [fsRename, if_neg (fun h => hdout h.symm), if_neg hout, fsWrite, if_pos rfl]
      · -- success by the copy-then-delete fallback
        rw [hD] at ha
        refine Or.inr (Or.inr (Or.inr (Or.inr (Or.inr ⟨text, _, rfl, by rw [hP, ha], ?_, ?_, ?_⟩))))
        · rw [fsRemove, if_pos rfl]
        · refine ⟨false, ?_⟩
          rw [fsRemove, if_neg hdsrc, fsWrite, if_pos rfl]
        · rw [fsRemove, if_neg hout, fsWrite, if_neg (fun h => hdout h.symm), fsWrite, if_pos rfl]

/-- C1 counterexample: a concrete run through the cross-device fallback — the
event for `/w/note.m4a` (durably synced content `"audio"`) reaches `done`, the
source is deleted from the watch directory, yet the only archive copy, at the
date-tiered path `/a/2026/01/22/note.m4a`, was written by `os.WriteFile` with
no `Sync` before the delete (recorded `synced := false`): the source is
deleted without a fully flushed copy in the archive. -/
theorem c1_counterexample_unsynced_archive_delete :
    (fun q => if q = "/w/note.m4a" then some (⟨"audio", true⟩ : FileData) else none)
      "/w/note.m4a" = some ⟨"audio", true⟩ ∧
    (processFile
        ⟨true, some "hello", true, ⟨true, true, false, true, true, true, true⟩,
          ⟨2026, 1, 22, 14, 31, 0⟩⟩
        ⟨100, "/o", "/a"⟩
        (fun q => if q = "/w/note.m4a" then some ⟨"audio", true⟩ else none)
        ⟨"/w/note.m4a", 5, ⟨2026, 1, 22, 14, 30, 5⟩⟩).1 =
      .done "/o/note-2026-01-22-143005.md" ∧
    (processFile
        ⟨true, some "hello", true, ⟨true, true, false, true, true, true, true⟩,
          ⟨2026, 1, 22, 14, 31, 0⟩⟩
        ⟨100, "/o", "/a"⟩
        (fun q => if q = "/w/note.m4a" then some ⟨"audio", true⟩ else none)
        ⟨"/w/note.m4a", 5, ⟨2026, 1, 22, 14, 30, 5⟩⟩).2 "/w/note.m4a" = none ∧
    (processFile
        ⟨true, some "hello", true, ⟨true, true, false, true, true, true, true⟩,
          ⟨2026, 1, 22, 14, 31, 0⟩⟩
        ⟨100, "/o", "/a"⟩
        (fun q => if q = "/w/note.m4a" then some ⟨"audio", true⟩ else none)
        ⟨"/w/note.m4a", 5, ⟨2026, 1, 22, 14, 30, 5⟩⟩).2 "/a/2026/01/22/note.m4a" =
      some ⟨"audio", false⟩ := by
  exact ⟨rfl, by decide, by decide, by decide⟩

/-- C1 (amended: the wired archiver, `SimpleArchiver`, relocates into the
date-tiered `archiveDir/YYYY/MM/DD` tree by atomic rename or — cross-device —
by a copy that is *not* flushed before the source is deleted; "copied (fully
flushed) into the archive directory" weakens to "content present at the chosen
archive destination"): the source file leaves the watch directory only through
a fully successful run, after the output artifact is in place at its final
path and with the source content present at the archive destination; on every
per-file failure (size skip, stabilization, transcription, write, or archive)
the source file is still present in the watch directory with its state
intact. -/
theorem c1_source_removed_only_after_output_and_archive
    (env : PipeEnv) (cfg : PipeConfig) (fs : FS) (event : FileEvent) (d : FileData)
    (hsrc : fs event.path = some d)
    (hout : goJoin cfg.outputDir (simpleFilename event.path event.timestamp env.now) ≠ event.path)
    (hc1out : goJoin (archiveDateDir env.now cfg.archiveDir) (goBase event.path) ≠
      goJoin cfg.outputDir (simpleFilename event.path event.timestamp env.now))
    (hdsrc : destFor env.now fs event.path cfg.archiveDir ≠ event.path)
    (hdout : destFor env.now fs event.path cfg.archiveDir ≠
      goJoin cfg.outputDir (simpleFilename event.path event.timestamp env.now)) :
    ((∀ p, (processFile env cfg fs event).1 ≠ .done p) →
      (processFile env cfg fs event).2 event.path = some d) ∧
    (∀ p, (processFile env cfg fs event).1 = .done p →
      p = goJoin cfg.outputDir (simpleFilename event.path event.timestamp env.now) ∧
      (processFile env cfg fs event).2 event.path = none ∧
      (∃ b, (processFile env cfg fs event).2 (destFor env.now fs event.path cfg.archiveDir) =
        some ⟨d.content, b⟩) ∧
      ∃ text, env.transcribeResult = some text ∧
        (processFile env cfg fs event).2 p =
          some ⟨formatTranscription text event.path event.timestamp, false⟩) ∧
    ((processFile env cfg fs event).2 event.path = none →
      ∃ p, (processFile env cfg fs event).1 = .done p) := by
  rcases processFile_cases env cfg fs event d hsrc hout hc1out hdsrc hdout with
    h | h | h | h | ⟨fsa, h, hfsa⟩ | ⟨text, fs2, htr, h, hgone, harch, houtw⟩
  · exact ⟨fun _ => by rw [h]; exact hsrc, fun p hp => absurd (by rw [h] at hp; exact hp) (by simp),
      fun hnone => absurd (by rw [h] at hnone; exact hnone) (by simp [hsrc])⟩
  · exact ⟨fun _ => by rw [h]; exact hsrc, fun p hp => absurd (by rw [h] at hp; exact hp) (by simp),
      fun hnone => absurd (by rw [h] at hnone; exact hnone) (by simp [hsrc])⟩
  · exact ⟨fun _ => by rw [h]; exact hsrc, fun p hp => absurd (by rw [h] at hp; exact hp) (by simp),
      fun hnone => absurd (by rw [h] at hnone; exact hnone) (by simp [hsrc])⟩
  · exact ⟨fun _ => by rw [h]; exact hsrc, fun p hp => absurd (by rw [h] at hp; exact hp) (by simp),
      fun hnone => absurd (by rw [h] at hnone; exact hnone) (by simp [hsrc])⟩
  · exact ⟨fun _ => by rw [h]; exact hfsa, fun p hp => absurd (by rw [h] at hp; exact hp) (by simp),
      fun hnone => absurd (by rw [h] at hnone; exact hnone) (by simp [hfsa])⟩
  · refine ⟨fun hnd => absurd (by rw [h]) (hnd _), ?_, fun _ => ⟨_, by rw [h]⟩⟩
    intro p hp
    rw [h] at hp
    obtain rfl : goJoin cfg.outputDir (simpleFilename event.path event.timestamp env.now) = p :=
      by simpa using hp
    refine ⟨rfl, ?_, ?_, text, htr, ?_⟩
    · rw [h]
      exact hgone
    · rw [h]
      exact harch
    · rw [h]
      exact houtw

/-- Witness for C1 (amended) at a concrete fully-successful rename-path run:
once the worker reaches `done`, the source is gone from the watch directory. -/
theorem c1_source_removed_only_after_output_and_archive_witness :
    (Pipeline.processFile
        ⟨true, some "hello", true, ⟨true, true, true, true, true, true, true⟩,
          ⟨2026, 1, 22, 14, 31, 0⟩⟩
        ⟨100, "/o", "/a"⟩
        (fun q => if q = "/w/note.m4a" then some ⟨"audio", true⟩ else none)
        ⟨"/w/note.m4a", 5, ⟨2026, 1, 22, 14, 30, 5⟩⟩).2 "/w/note.m4a" = none :=
  ((c1_source_removed_only_after_output_and_archive
    ⟨true, some "hello", true, ⟨true, true, true, true, true, true, true⟩,
      ⟨2026, 1, 22, 14, 31, 0⟩⟩
    ⟨100, "/o", "/a"⟩
    (fun q => if q = "/w/note.m4a" then some ⟨"audio", true⟩ else none)
    ⟨"/w/note.m4a", 5, ⟨2026, 1, 22, 14, 30, 5⟩⟩ ⟨"audio", true⟩
    rfl (by decide) (by decide) (by decide) (by decide)).2.1
    "/o/note-2026-01-22-143005.md" (by decide)).2.1

/-- C5: a file event strictly larger than `max_file_size_mb × 1024 × 1024`
bytes is skipped entirely — the outcome is the terminal skip and the
filesystem is untouched, whatever the other stages would have done — while an
event at or below the limit is never skipped, and an event exactly at the
limit runs the full pipeline to `done` when every stage succeeds. -/
theorem c5_size_check (env : PipeEnv) (cfg : PipeConfig) (fs : FS) (event : FileEvent) :
    (event.size > cfg.maxFileSizeMB * 1024 * 1024 →
      processFile env cfg fs event = (.skippedTooLarge, fs)) ∧
    (event.size ≤ cfg.maxFileSizeMB * 1024 * 1024 →
      (processFile env cfg fs event).1 ≠ .skippedTooLarge) ∧
    (event.size = cfg.maxFileSizeMB * 1024 * 1024 →
      env.stabOk = true → env.writeOk = true →
      env.arch = ⟨true, true, true, true, true, true, true⟩ →
      ∀ text d, env.transcribeResult = some text → fs event.path = some d →
      goJoin cfg.outputDir (simpleFilename event.path event.timestamp env.now) ≠ event.path →
      (processFile env cfg fs event).1 =
        .done (goJoin cfg.outputDir (simpleFilename event.path event.timestamp env.now))) := by
  refine ⟨?_, ?_, ?_⟩
  · intro hsz
    simp [processFile, hsz]
  · intro hle
    simp only [processFile]
    rw [if_neg (not_lt.mpr hle)]
    cases env.stabOk
    · simp
    · cases htr : env.transcribeResult with
      | none => simp
      | some text =>
        simp only [Bool.not_true, Bool.false_eq_true, if_false]
        cases hw : env.writeOk
        · simp [simpleWrite]
        · simp only [simpleWrite, if_pos rfl]
          rcases ha : simpleArchive env.arch env.now
            (fsWrite fs
              (goJoin cfg.outputDir (simpleFilename event.path event.timestamp env.now))
              ⟨formatTranscription text event.path event.timestamp, false⟩)
            event.path cfg.archiveDir with ⟨oe, fsa⟩
          cases oe <;> simp [ha]
  · intro heq hst hw harchenv text d htr hsrc hout
    have hnot : ¬ event.size > cfg.maxFileSizeMB * 1024 * 1024 := by omega
    have hsrc1 : fsWrite fs
        (goJoin cfg.outputDir (simpleFilename event.path event.timestamp env.now))
        ⟨formatTranscription text event.path event.timestamp, false⟩ event.path = some d := by
      rw [fsWrite, if_neg (fun hx => hout hx.symm), hsrc]
    have ha : simpleArchive env.arch env.now
        (fsWrite fs (goJoin cfg.outputDir (simpleFilename event.path event.timestamp env.now))
          ⟨formatTranscription text event.path event.timestamp, false⟩) event.path
        cfg.archiveDir =
        (none,
          fsRename
            (fsWrite fs
              (goJoin cfg.outputDir (simpleFilename event.path event.timestamp env.now))
              ⟨formatTranscription text event.path event.timestamp, false⟩)
            event.path
            (destFor env.now
              (fsWrite fs
                (goJoin cfg.outputDir (simpleFilename event.path event.timestamp env.now))
                ⟨formatTranscription text event.path event.timestamp, false⟩)
              event.path cfg.archiveDir)) := by
      rw [harchenv, simpleArchive]
      simp only [Bool.not_true, Bool.false_eq_true, if_false]
      rw [hsrc1]
      simp
    simp [processFile, hnot, hst, htr, simpleWrite, hw, ha]

/-- Witness for C5: a 104 857 601-byte event against a 100 MB limit
(104 857 600 bytes) is skipped with the filesystem untouched. -/
theorem c5_size_check_witness :
    processFile ⟨true, some "hi", true, ⟨true, true, true, true, true, true, true⟩, GoTime.zero⟩
        ⟨100, "/o", "/a"⟩ (fun _ => none) ⟨"/w/a.m4a", 104857601, GoTime.zero⟩ =
      (.skippedTooLarge, fun _ => none) :=
  (c5_size_check ⟨true, some "hi", true, ⟨true, true, true, true, true, true, true⟩, GoTime.zero⟩
    ⟨100, "/o", "/a"⟩ (fun _ => none) ⟨"/w/a.m4a", 104857601, GoTime.zero⟩).1 (by decide)

end Pipeline

/-! ## PID file (pidfile package)

`pidfile.Read` reads `~/.nota/transcribe.pid`, trims whitespace, parses with
`strconv.Atoi` and rejects any parse error or non-positive value;
`pidfile.IsRunning` maps a missing file to "not running", and probes a
well-formed PID with `syscall.Kill(pid, 0)`.  The file's presence and content
enter as an `Option String`; the probe as a function from PID to its errno. -/

namespace Pidfile

/-- ASCII whitespace as trimmed by `strings.TrimSpace` on the PID file body
(the body is ASCII by construction: decimal digits plus a newline). -/
def isSpaceChar (c : Char) : Bool :=
  c = ' ' || c = '\t' || c = '\n' || c = '\r' || c = Char.ofNat 11 || c = Char.ofNat 12

/-- `strings.TrimSpace` for ASCII content. -/
def trimSpace (s : String) : String :=
  String.mk (((s.data.dropWhile isSpaceChar).reverse.dropWhile isSpaceChar).reverse)

/-- All-decimal-digit parse (the digit part of `strconv.ParseInt` base 10). -/
def parseDigits (cs : List Char) : Option Nat :=
  if cs = [] then none
  else if cs.all (fun c => c.isDigit) then
    some (cs.foldl (fun acc c => acc * 10 + (c.toNat - '0'.toNat)) 0)
  else none

/-- `strconv.Atoi`: optional sign, decimal digits, 64-bit range check; `none`
models a non-nil error (syntax or range). -/
def goAtoi (s : String) : Option Int :=
  let signAndDigits : Int × List Char :=
    match s.data with
    | '-' :: rest => (-1, rest)
    | '+' :: rest => (1, rest)
    | cs => (1, cs)
  match parseDigits signAndDigits.2 with
  | none => none
  | some n =>
    let v : Int := signAndDigits.1 * n
    if v < -(2 ^ 63) ∨ 2 ^ 63 - 1 < v then none else some v

/-- Result of `pidfile.Read`: the parsed PID, `ErrNoPIDFile`, or
`ErrInvalidPID`. -/
inductive ReadResult where
  | ok (pid : Int)
  | noPIDFile
  | invalidPID
deriving DecidableEq, Repr

/-- `pidfile.Read`: a missing file is `ErrNoPIDFile`; a body whose trimmed
content fails `strconv.Atoi` or parses to a non-positive value is
`ErrInvalidPID`. -/
def readPid (fileContent : Option String) : ReadResult :=
  match fileContent with
  | none => .noPIDFile
  | some data =>
    match goAtoi (trimSpace data) with
    | none => .invalidPID
    | some pid => if pid ≤ 0 then .invalidPID else .ok pid

/-- Outcome of the `syscall.Kill(pid, 0)` existence probe. -/
inductive Probe where
  | ok
  | esrch
  | eperm
  | otherErr
deriving DecidableEq, Repr

/-- Result of `pidfile.IsRunning`: the `(running, pid, error)` triple. -/
inductive RunResult where
  | ok (running : Bool) (pid : Int)
  | readErr
  | probeErr (pid : Int)
deriving DecidableEq, Repr

/-- `pidfile.IsRunning`: no PID file means not running with pid 0 and no
error; a read error propagates; otherwise probe the PID — `ESRCH` means a
stale file (not running, pid returned), `EPERM` means alive. -/
def isRunning (fileContent : Option String) (probe : Int → Probe) : RunResult :=
  match readPid fileContent with
  | .noPIDFile => .ok false 0
  | .invalidPID => .readErr
  | .ok pid =>
    match probe pid with
    | .ok => .ok true pid
    | .esrch => .ok false pid
    | .eperm => .ok true pid
    | .otherErr => .probeErr pid

/-- C7: PID-file classification.  A body of `"-1"`, `"0"`, any non-positive
parsed number, or non-numeric data reads as the invalid-PID error; a missing
PID file is classified not running with pid 0 and no error; a present
well-formed PID file whose process fails the existence probe with `ESRCH` is
classified stale — not running, with the stale PID returned. -/
theorem c7_pidfile_classification :
    readPid (some "-1") = .invalidPID ∧
    readPid (some "0") = .invalidPID ∧
    (∀ s n, goAtoi (trimSpace s) = some n → n ≤ 0 → readPid (some s) = .invalidPID) ∧
    (∀ s, goAtoi (trimSpace s) = none → readPid (some s) = .invalidPID) ∧
    (∀ probe, isRunning none probe = .ok false 0) ∧
    (∀ s pid probe, readPid (some s) = .ok pid → probe pid = .esrch →
      isRunning (some s) probe = .ok false pid) := by
  refine ⟨by decide, by decide, ?_, ?_, ?_, ?_⟩
  · intro s n hparse hle
    rw [readPid, hparse]
    simp [hle]
  · intro s hparse
    rw [readPid, hparse]
  · intro probe
    rw [isRunning, readPid]
  · intro s pid probe hread hprobe
    rw [isRunning, hread]
    simp [hprobe]

/-- Witness for C7: a stale PID file containing `"42\n"` whose process probe
answers `ESRCH`. -/
theorem c7_pidfile_classification_witness :
    isRunning (some "42\n") (fun _ => .esrch) = .ok false 42 :=
  c7_pidfile_classification.2.2.2.2.2 "42\n" 42 (fun _ => .esrch) (by decide) rfl

end Pidfile

/-! ## Configuration (the transcribe package's config file)

`Config` is a flat JSON object; `SaveToVault` marshals it with the struct's
field tags, `LoadFromVault` unmarshals and then expands a leading `~` in the
path fields.  The JSON layer is modelled at the level of the field map the
encoder writes and the decoder reads; `os.UserHomeDir` enters as the `home`
parameter. -/

namespace Cfg

/-- The JSON values occurring in a `transcribe.json` document. -/
inductive JValue where
  | str (s : String)
  | num (n : Int)
  | null
  | arr (xs : List String)
deriving DecidableEq, Repr

/-- A JSON object: field name to value. -/
def JObj : Type := List (String × JValue)

/-- The `Config` struct. -/
structure Config where
  watchDir : String
  apiURL : String
  outputDir : String
  templatePath : Option String
  archiveDir : String
  watchPatterns : List String
  stabilizationIntervalMs : Int
  stabilizationChecks : Int
  language : String
  model : String
  maxFileSizeMB : Int
  retryCount : Int
deriving DecidableEq, Repr

/-- `json.MarshalIndent` of a `Config`: one entry per struct field, keyed by
its `json:` tag; a nil `TemplatePath` marshals to `null`. -/
def marshal (c : Config) : JObj :=
  [("watch_dir", .str c.watchDir),
   ("api_url", .str c.apiURL),
   ("output_dir", .str c.outputDir),
   ("template_path", match c.templatePath with | some t => .str t | none => .null),
   ("archive_dir", .str c.archiveDir),
   ("watch_patterns", .arr c.watchPatterns),
   ("stabilization_interval_ms", .num c.stabilizationIntervalMs),
   ("stabilization_checks", .num c.stabilizationChecks),
   ("language", .str c.language),
   ("model", .str c.model),
   ("max_file_size_mb", .num c.maxFileSizeMB),
   ("retry_count", .num c.retryCount)]

/-- Decoder access: a string field (absent or mistyped decodes to Go's zero
value, the empty string). -/
def getStr (o : JObj) (k : String) : String :=
  match List.lookup k o with
  | some (.str s) => s
  | _ => ""

/-- Decoder access: an integer field (absent decodes to 0). -/
def getNum (o : JObj) (k : String) : Int :=
  match List.lookup k o with
  | some (.num n) => n
  | _ => 0

/-- Decoder access: a nullable string field (`*string`; absent or null
decodes to nil). -/
def getOptStr (o : JObj) (k : String) : Option String :=
  match List.lookup k o with
  | some (.str s) => some s
  | _ => none

/-- Decoder access: a string-array field (absent or null decodes to nil). -/
def getArr (o : JObj) (k : String) : List String :=
  match List.lookup k o with
  | some (.arr xs) => xs
  | _ => []

/-- `json.Unmarshal` into a `Config`. -/
def unmarshal (o : JObj) : Config :=
  ⟨getStr o "watch_dir", getStr o "api_url", getStr o "output_dir",
   getOptStr o "template_path", getStr o "archive_dir", getArr o "watch_patterns",
   getNum o "stabilization_interval_ms", getNum o "stabilization_checks",
   getStr o "language", getStr o "model", getNum o "max_file_size_mb",
   getNum o "retry_count"⟩

/-- `expandTilde`: a path that is exactly `~` becomes the home directory; a
leading `~/` is replaced by the home directory (`filepath.Join(home, path[2:])`);
everything else — including a `~` in the middle of the path — is returned
unchanged.  The `strings.HasPrefix(path, "~/")` test is taken on the
character list. -/
def expandTilde (home : String) (path : String) : String :=
  if path = "" then path
  else if path = "~" then home
  else
    match path.data with
    | '~' :: '/' :: rest => goJoin home (String.mk rest)
    | _ => path

/-- `Config.expandPaths`: applied to the watch, output, archive and template
path fields on load (not to the API URL). -/
def expandPaths (home : String) (c : Config) : Config :=
  { c with
    watchDir := expandTilde home c.watchDir
    outputDir := expandTilde home c.outputDir
    archiveDir := expandTilde home c.archiveDir
    templatePath := c.templatePath.map (expandTilde home) }

/-- `LoadFromVault` applied to the bytes `SaveToVault` wrote: unmarshal, then
expand the tilde paths. -/
def loadSaved (home : String) (c : Config) : Config :=
  expandPaths home (unmarshal (marshal c))

/-- `Config.Validate`: the three required fields. -/
def validate (c : Config) : Bool :=
  c.watchDir ≠ "" ∧ c.apiURL ≠ "" ∧ c.outputDir ≠ ""

/-- `Config.ApplyDefaults`: replace each empty / zero optional field by its
default. -/
def applyDefaults (c : Config) : Config :=
  { c with
    archiveDir := if c.archiveDir = "" then "~/.nota/archive/audio" else c.archiveDir
    watchPatterns := if c.watchPatterns = [] then ["*.m4a", "*.mp3", "*.wav"]
      else c.watchPatterns
    stabilizationIntervalMs := if c.stabilizationIntervalMs = 0 then 2000
      else c.stabilizationIntervalMs
    stabilizationChecks := if c.stabilizationChecks = 0 then 3 else c.stabilizationChecks
    language := if c.language = "" then "auto" else c.language
    model := if c.model = "" then "base" else c.model
    maxFileSizeMB := if c.maxFileSizeMB = 0 then 100 else c.maxFileSizeMB
    retryCount := if c.retryCount = 0 then 3 else c.retryCount }

/-- The configuration phase of `NewService`: apply defaults, validate, and use
the resulting config for all components. -/
def newServiceConfig (c : Config) : Option Config :=
  let cfg := applyDefaults c
  if validate cfg then some cfg else none

/-- C8: saving a valid `Config` to the vault and loading it back yields the
original structure, except that on load a leading `~` or `~/` in the four path
fields (watch, output, archive, template) is expanded to the home directory;
the API URL and all non-path fields come back verbatim; a path that does not
begin with `~` — in particular one with a mid-path `~` — is left unchanged. -/
theorem c8_config_round_trip (home : String) (c : Config)
    (hvalid : validate c = true) :
    unmarshal (marshal c) = c ∧
    loadSaved home c = expandPaths home c ∧
    (loadSaved home c).watchDir = expandTilde home c.watchDir ∧
    (loadSaved home c).outputDir = expandTilde home c.outputDir ∧
    (loadSaved home c).archiveDir = expandTilde home c.archiveDir ∧
    (loadSaved home c).templatePath = c.templatePath.map (expandTilde home) ∧
    (loadSaved home c).apiURL = c.apiURL ∧
    (loadSaved home c).watchPatterns = c.watchPatterns ∧
    (loadSaved home c).stabilizationIntervalMs = c.stabilizationIntervalMs ∧
    (loadSaved home c).stabilizationChecks = c.stabilizationChecks ∧
    (loadSaved home c).language = c.language ∧
    (loadSaved home c).model = c.model ∧
    (loadSaved home c).maxFileSizeMB = c.maxFileSizeMB ∧
    (loadSaved home c).retryCount = c.retryCount ∧
    expandTilde home "~" = home ∧
    (∀ rest, expandTilde home (String.mk ('~' :: '/' :: rest)) =
      goJoin home (String.mk rest)) ∧
    (∀ p, p.data.head? ≠ some '~' → expandTilde home p = p) := by
  have hrt : unmarshal (marshal c) = c := by
    rcases c with ⟨w, a, o, tp, ar, wp, si, sc, la, mo, mx, rc⟩
    cases tp <;> rfl
  have htilde1 : expandTilde home "~" = home := by
    rw [expandTilde, if_neg (by decide), if_pos rfl]
  have htilde2 : ∀ rest, expandTilde home (String.mk ('~' :: '/' :: rest)) =
      goJoin home (String.mk rest) := by
    intro rest
    rw [expandTilde]
    rw [if_neg (by simp [String.ext_iff]), if_neg (by simp [String.ext_iff])]
    rfl
  have htilde3 : ∀ p : String, p.data.head? ≠ some '~' → expandTilde home p = p := by
    intro p hp
    rw [expandTilde]
    by_cases h0 : p = ""
    · rw [if_pos h0]
    · rw [if_neg h0, if_neg (by rintro rfl; exact hp rfl)]
      rcases hd : p.data with _ | ⟨c, cs⟩
      · rfl
      · have hc : c ≠ '~' := by
          intro hcc
          apply hp
          rw [hd, hcc]
          rfl
        rcases cs with _ | ⟨c2, cs2⟩
        · simp [hc]
        · simp [hc]
  refine ⟨hrt, by rw [loadSaved, hrt], ?_, ?_, ?_, ?_, ?_, ?_, ?_, ?_, ?_, ?_, ?_, ?_,
    htilde1, htilde2, htilde3⟩ <;>
    rw [loadSaved, hrt] <;> simp [expandPaths]

/-- Witness for C8 at a concrete valid config exercising a `~/` watch path, a
mid-path `~` archive path and a template with a `~` in the middle. -/
theorem c8_config_round_trip_witness :
    unmarshal (marshal
      ⟨"~/w", "http-endpoint", "~/o", some "/t~x", "a~b", ["*.m4a"], 2000, 3, "auto",
        "base", 100, 3⟩) =
      ⟨"~/w", "http-endpoint", "~/o", some "/t~x", "a~b", ["*.m4a"], 2000, 3, "auto",
        "base", 100, 3⟩ :=
  (c8_config_round_trip "/home/u"
    ⟨"~/w", "http-endpoint", "~/o", some "/t~x", "a~b", ["*.m4a"], 2000, 3, "auto",
      "base", 100, 3⟩ (by decide)).1

/-- C10: `ApplyDefaults` — run by `NewService` on every service start —
replaces each zero or empty optional field by its default, so an explicitly
configured zero is indistinguishable from an absent field: `retry_count = 0`
becomes 3 and `stabilization_checks = 0` becomes 3, so retries and
stabilization checks cannot be disabled through the config file; negative
values, however, pass through unchanged. -/
theorem c10_apply_defaults (c : Config) :
    (applyDefaults c).retryCount = (if c.retryCount = 0 then 3 else c.retryCount) ∧
    (applyDefaults c).stabilizationChecks =
      (if c.stabilizationChecks = 0 then 3 else c.stabilizationChecks) ∧
    (applyDefaults c).archiveDir =
      (if c.archiveDir = "" then "~/.nota/archive/audio" else c.archiveDir) ∧
    (applyDefaults c).watchPatterns =
      (if c.watchPatterns = [] then ["*.m4a", "*.mp3", "*.wav"] else c.watchPatterns) ∧
    (applyDefaults c).stabilizationIntervalMs =
      (if c.stabilizationIntervalMs = 0 then 2000 else c.stabilizationIntervalMs) ∧
    (applyDefaults c).language = (if c.language = "" then "auto" else c.language) ∧
    (applyDefaults c).model = (if c.model = "" then "base" else c.model) ∧
    (applyDefaults c).maxFileSizeMB =
      (if c.maxFileSizeMB = 0 then 100 else c.maxFileSizeMB) ∧
    (applyDefaults c).watchDir = c.watchDir ∧
    (applyDefaults c).apiURL = c.apiURL ∧
    (applyDefaults c).outputDir = c.outputDir ∧
    (applyDefaults c).templatePath = c.templatePath ∧
    (c.retryCount < 0 → (applyDefaults c).retryCount = c.retryCount) ∧
    (c.stabilizationChecks < 0 →
      (applyDefaults c).stabilizationChecks = c.stabilizationChecks) ∧
    applyDefaults { c with retryCount := 0 } = applyDefaults { c with retryCount := 3 } ∧
    applyDefaults { c with stabilizationChecks := 0 } =
      applyDefaults { c with stabilizationChecks := 3 } ∧
    (∀ cfg, newServiceConfig c = some cfg →
      cfg.retryCount = (if c.retryCount = 0 then 3 else c.retryCount) ∧
      cfg.stabilizationChecks =
        (if c.stabilizationChecks = 0 then 3 else c.stabilizationChecks)) := by
  refine ⟨by simp [applyDefaults], by simp [applyDefaults], by simp [applyDefaults],
    by simp [applyDefaults], by simp [applyDefaults], by simp [applyDefaults],
    by simp [applyDefaults], by simp [applyDefaults], by simp [applyDefaults],
    by simp [applyDefaults], by simp [applyDefaults], by simp [applyDefaults],
    ?_, ?_, ?_, ?_, ?_⟩
  · intro hneg
    simp [applyDefaults, if_neg (by omega : ¬ c.retryCount = 0)]
  · intro hneg
    simp [applyDefaults, if_neg (by omega : ¬ c.stabilizationChecks = 0)]
  · simp [applyDefaults]
  · simp [applyDefaults]
  · intro cfg h
    rw [newServiceConfig] at h
    by_cases hv : validate (applyDefaults c) = true
    · simp only [hv, if_true, Option.some.injEq] at h
      subst h
      exact ⟨by simp [applyDefaults], by simp [applyDefaults]⟩
    · simp only [hv] at h
      simp at h

/-- Witness for C10: negative values pass through `ApplyDefaults` unchanged. -/
theorem c10_apply_defaults_witness :
    (applyDefaults ⟨"/w", "u", "/o", none, "", [], 0, -1, "", "", 0, -2⟩).retryCount = -2 :=
  (c10_apply_defaults ⟨"/w", "u", "/o", none, "", [], 0, -1, "", "", 0, -2⟩).2.2.2.2.2.2.2.2.2.2.2.2.1
    (by decide)

end Cfg

end NotaOrbis
